import Mathlib

/-
Shallow embedding of the ElevatorSimulation repository (Building.h, Elevator.h,
Passenger.h, Floor.h, Statistic.h, main.cpp).  The embedding follows the revision
that compiles together: Building.h constructs elevators with the four-argument
constructor, which is the Elevator revision that also forces the travel direction
at terminal floors before pickup.  C++ ints are modelled as Int (no overflow is
reachable in the simulated quantities), std::deque / std::queue / std::vector as
List, and out-of-bounds container accesses (UB for operator[], std::out_of_range
for .at) as Option.none.
-/

namespace ElevatorSim

/-- ElevatorDirection from ElevatorState.h. -/
inductive ElevatorDirection
  | UP
  | DOWN
deriving DecidableEq

/-- ElevatorState from ElevatorState.h. -/
inductive ElevatorState
  | STOPPED
  | STOPPING
  | MOVING_UP
  | MOVING_DOWN
deriving DecidableEq

/-- The Passenger value type (Passenger.h). -/
structure Passenger where
  passengerID : Int
  startTime : Int
  startFloor : Int
  endFloor : Int
  direction : ElevatorDirection
  waitTime : Int
  travelTime : Int
deriving DecidableEq

/-- Passenger constructor (Passenger.h): throws std::invalid_argument when a floor
number is outside [1, 100]; otherwise stores the floors and derives the direction
(UP when startFloor < endFloor, DOWN otherwise). -/
def Passenger.make (passengerID startTime startFloor endFloor : Int) :
    Except String Passenger :=
  if startFloor < 1 || startFloor > 100 || endFloor < 1 || endFloor > 100 then
    Except.error "Invalid floor number"
  else
    Except.ok
      { passengerID := passengerID, startTime := startTime,
        startFloor := startFloor, endFloor := endFloor,
        direction :=
          if startFloor < endFloor then ElevatorDirection.UP else ElevatorDirection.DOWN,
        waitTime := 0, travelTime := 0 }

/-- Passenger::calculateWaitTime. -/
def Passenger.calculateWaitTime (p : Passenger) (currentTime : Int) : Passenger :=
  { p with waitTime := currentTime - p.startTime }

/-- Passenger::calculateTravelTime. -/
def Passenger.calculateTravelTime (p : Passenger) (currentTime : Int) : Passenger :=
  { p with travelTime := currentTime - (p.startTime + p.waitTime) }

/-- The Floor data holder (Floor.h). -/
structure Floor where
  floorNumber : Int
  waitingPassengers : List Passenger
  deliveredPassengers : List Passenger
deriving DecidableEq

/-- Floor::addWaitingPassenger: push_back on the waiting deque. -/
def Floor.addWaitingPassenger (f : Floor) (p : Passenger) : Floor :=
  { f with waitingPassengers := f.waitingPassengers ++ [p] }

/-- Floor::hasWaitingPassengers. -/
def Floor.hasWaitingPassengers (f : Floor) : Bool :=
  !f.waitingPassengers.isEmpty

/-- Result of Statistic::getAverage: either the quiet NaN returned for an empty
sample list, or the exact quotient sum / size. -/
inductive AvgResult
  | nan
  | val (q : ℚ)
deriving DecidableEq

/-- The Statistic accumulator (Statistic.h). -/
structure Statistic where
  numberList : List Int
deriving DecidableEq

/-- Statistic::addNumber. -/
def Statistic.addNumber (s : Statistic) (n : Int) : Statistic :=
  { numberList := s.numberList ++ [n] }

/-- Statistic::getAverage: quiet NaN when the list is empty, otherwise sum divided
by size. -/
def Statistic.getAverage (s : Statistic) : AvgResult :=
  if s.numberList.length == 0 then AvgResult.nan
  else AvgResult.val ((s.numberList.sum : ℚ) / (s.numberList.length : ℚ))

/-- Elevator CAPACITY constant (Elevator.h). -/
def CAPACITY : Nat := 8

/-- The Elevator state machine's data (Elevator.h). -/
structure Elevator where
  elevatorID : Int
  currentFloor : Int
  nextActionTime : Int
  ELEVATOR_SPEED : Int
  ELEVATOR_STOP_TIME : Int
  state : ElevatorState
  direction : ElevatorDirection
  passengers : List Passenger
deriving DecidableEq

/-- Elevator constructor: starts at floor 1, direction UP, state STOPPED, no
passengers. -/
def Elevator.make (elevatorNum speed elevatorStoppingTime : Int) : Elevator :=
  { elevatorID := elevatorNum, currentFloor := 1, nextActionTime := 0,
    ELEVATOR_SPEED := speed, ELEVATOR_STOP_TIME := elevatorStoppingTime,
    state := ElevatorState.STOPPED, direction := ElevatorDirection.UP,
    passengers := [] }

/-- Elevator::hasPassengers. -/
def Elevator.hasPassengers (e : Elevator) : Bool :=
  !e.passengers.isEmpty

/-- Elevator::shouldStopAtFloor: stop when a boarded passenger gets off here;
otherwise refuse when strictly over capacity; otherwise stop when a waiting
passenger travels in the elevator's direction. -/
def Elevator.shouldStopAtFloor (e : Elevator) (floor : Floor) : Bool :=
  if e.passengers.any (fun p => p.endFloor == floor.floorNumber) then true
  else if e.passengers.length > CAPACITY then false
  else floor.waitingPassengers.any (fun p => p.direction == e.direction)

/-- The iterator loop of Elevator::pickUpPassengers: walks the waiting deque,
breaking when the elevator holds CAPACITY passengers, boarding (with waitTime
set) each same-direction passenger and leaving the others in place.  Returns the
remaining waiting deque and the elevator's passenger deque. -/
def pickUpLoop (direction : ElevatorDirection) (currentTime : Int) :
    List Passenger → List Passenger → List Passenger × List Passenger
  | [], boarded => ([], boarded)
  | p :: rest, boarded =>
    if boarded.length == CAPACITY then (p :: rest, boarded)
    else if p.direction == direction then
      pickUpLoop direction currentTime rest (boarded ++ [p.calculateWaitTime currentTime])
    else
      let r := pickUpLoop direction currentTime rest boarded
      (p :: r.1, r.2)

/-- Elevator::pickUpPassengers. -/
def Elevator.pickUpPassengers (e : Elevator) (floor : Floor) (currentTime : Int) :
    Elevator × Floor :=
  let r := pickUpLoop e.direction currentTime floor.waitingPassengers e.passengers
  ({ e with passengers := r.2 }, { floor with waitingPassengers := r.1 })

/-- The iterator loop of Elevator::dropOffPassengers: every boarded passenger whose
endFloor is this floor gets travelTime set and moves to the floor's delivered
deque.  Returns the elevator's passenger deque and the floor's delivered deque. -/
def dropOffLoop (floorNumber currentTime : Int) :
    List Passenger → List Passenger → List Passenger × List Passenger
  | [], delivered => ([], delivered)
  | p :: rest, delivered =>
    if p.endFloor == floorNumber then
      dropOffLoop floorNumber currentTime rest (delivered ++ [p.calculateTravelTime currentTime])
    else
      let r := dropOffLoop floorNumber currentTime rest delivered
      (p :: r.1, r.2)

/-- Elevator::dropOffPassengers. -/
def Elevator.dropOffPassengers (e : Elevator) (floor : Floor) (currentTime : Int) :
    Elevator × Floor :=
  let r := dropOffLoop floor.floorNumber currentTime e.passengers floor.deliveredPassengers
  ({ e with passengers := r.1 }, { floor with deliveredPassengers := r.2 })

/-- floors.at(currentFloor - 1): none models std::out_of_range / UB for an index
outside the vector. -/
def floorAt (floors : List Floor) (currentFloor : Int) : Option Floor :=
  if currentFloor < 1 then none else floors[(currentFloor - 1).toNat]?

/-- Write-back of the floor the elevator mutated through its reference. -/
def setFloorAt (floors : List Floor) (currentFloor : Int) (f : Floor) : List Floor :=
  floors.set (currentFloor - 1).toNat f

/-- The movement decision closing the STOPPED case of Elevator::update: keep
moving in the current direction, flipping it at the terminal floors. -/
def Elevator.chooseMove (e3 : Elevator) (currentTime NUM_OF_FLOORS : Int) : Elevator :=
  if e3.direction == ElevatorDirection.UP && e3.currentFloor != NUM_OF_FLOORS then
    { e3 with state := ElevatorState.MOVING_UP,
              nextActionTime := currentTime + e3.ELEVATOR_SPEED }
  else if e3.direction == ElevatorDirection.UP && e3.currentFloor == NUM_OF_FLOORS then
    { e3 with state := ElevatorState.MOVING_DOWN,
              nextActionTime := currentTime + e3.ELEVATOR_SPEED,
              direction := ElevatorDirection.DOWN }
  else if e3.direction == ElevatorDirection.DOWN && e3.currentFloor != 1 then
    { e3 with state := ElevatorState.MOVING_DOWN,
              nextActionTime := currentTime + e3.ELEVATOR_SPEED }
  else if e3.direction == ElevatorDirection.DOWN && e3.currentFloor == 1 then
    { e3 with state := ElevatorState.MOVING_UP,
              nextActionTime := currentTime + e3.ELEVATOR_SPEED,
              direction := ElevatorDirection.UP }
  else e3

/-- The body of the STOPPED case acting on the floor the elevator occupies:
drop off, force direction at a terminal floor, pick up, then the movement
decision.  Returns the updated elevator and the updated floor. -/
def Elevator.stoppedCore (e : Elevator) (currentTime NUM_OF_FLOORS : Int)
    (floor0 : Floor) : Elevator × Floor :=
  let r1 := if e.passengers.isEmpty then (e, floor0)
            else e.dropOffPassengers floor0 currentTime
  let e2 :=
    if r1.1.currentFloor == 1 then { r1.1 with direction := ElevatorDirection.UP }
    else if r1.1.currentFloor == NUM_OF_FLOORS then
      { r1.1 with direction := ElevatorDirection.DOWN }
    else r1.1
  let r2 := if r1.2.waitingPassengers.isEmpty then (e2, r1.2)
            else e2.pickUpPassengers r1.2 currentTime
  (r2.1.chooseMove currentTime NUM_OF_FLOORS, r2.2)

/-- The STOPPED case of Elevator::update: run the core on the floor at
currentFloor (through the reference floors.at(currentFloor - 1)) and write the
floor back. -/
def Elevator.updateStopped (e : Elevator) (currentTime NUM_OF_FLOORS : Int)
    (floors : List Floor) : Option (Elevator × List Floor) :=
  match floorAt floors e.currentFloor with
  | none => none
  | some floor0 =>
    let r := e.stoppedCore currentTime NUM_OF_FLOORS floor0
    some (r.1, setFloorAt floors e.currentFloor r.2)

/-- The STOPPING case of Elevator::update: a pure dwell timer. -/
def Elevator.updateStopping (e : Elevator) (currentTime : Int) : Elevator :=
  if e.nextActionTime == currentTime then { e with state := ElevatorState.STOPPED }
  else e

/-- The MOVING_UP case of Elevator::update: at nextActionTime, ++currentFloor,
then stop, keep climbing, or reverse at the top floor. -/
def Elevator.updateMovingUp (e : Elevator) (currentTime NUM_OF_FLOORS : Int)
    (floors : List Floor) : Option (Elevator × List Floor) :=
  if e.nextActionTime == currentTime then
    (floorAt floors (e.currentFloor + 1)).map (fun floor =>
      if Elevator.shouldStopAtFloor { e with currentFloor := e.currentFloor + 1 } floor then
        ({ e with currentFloor := e.currentFloor + 1,
                  state := ElevatorState.STOPPING,
                  nextActionTime := currentTime + e.ELEVATOR_STOP_TIME - 1 }, floors)
      else if e.currentFloor + 1 != NUM_OF_FLOORS then
        ({ e with currentFloor := e.currentFloor + 1,
                  nextActionTime := currentTime + e.ELEVATOR_SPEED }, floors)
      else
        ({ e with currentFloor := e.currentFloor + 1,
                  state := ElevatorState.MOVING_DOWN,
                  nextActionTime := currentTime + e.ELEVATOR_SPEED,
                  direction := ElevatorDirection.DOWN }, floors))
  else some (e, floors)

/-- The MOVING_DOWN case of Elevator::update: at nextActionTime, --currentFloor,
then stop, keep descending, or reverse at the bottom floor. -/
def Elevator.updateMovingDown (e : Elevator) (currentTime NUM_OF_FLOORS : Int)
    (floors : List Floor) : Option (Elevator × List Floor) :=
  if e.nextActionTime == currentTime then
    (floorAt floors (e.currentFloor - 1)).map (fun floor =>
      if Elevator.shouldStopAtFloor { e with currentFloor := e.currentFloor - 1 } floor then
        ({ e with currentFloor := e.currentFloor - 1,
                  state := ElevatorState.STOPPING,
                  nextActionTime := currentTime + e.ELEVATOR_STOP_TIME - 1 }, floors)
      else if e.currentFloor - 1 != 1 then
        ({ e with currentFloor := e.currentFloor - 1,
                  nextActionTime := currentTime + e.ELEVATOR_SPEED }, floors)
      else
        ({ e with currentFloor := e.currentFloor - 1,
                  state := ElevatorState.MOVING_UP,
                  nextActionTime := currentTime + e.ELEVATOR_SPEED,
                  direction := ElevatorDirection.UP }, floors))
  else some (e, floors)

/-- Elevator::update: dispatch on the current state. -/
def Elevator.update (e : Elevator) (currentTime NUM_OF_FLOORS : Int)
    (floors : List Floor) : Option (Elevator × List Floor) :=
  match e.state with
  | ElevatorState.STOPPED => e.updateStopped currentTime NUM_OF_FLOORS floors
  | ElevatorState.STOPPING => some (e.updateStopping currentTime, floors)
  | ElevatorState.MOVING_UP => e.updateMovingUp currentTime NUM_OF_FLOORS floors
  | ElevatorState.MOVING_DOWN => e.updateMovingDown currentTime NUM_OF_FLOORS floors

/-- The Building scheduler's state (Building.h). -/
structure Building where
  NUM_OF_FLOORS : Int
  NUM_OF_ELEVATORS : Int
  ELEVATOR_SPEED : Int
  ELEVATOR_STOPPING_TIME : Int
  currentTime : Int
  floors : List Floor
  elevators : List Elevator
  passengers : List Passenger
  travelTimeStat : Statistic
  waitTimeStat : Statistic
  totalPassenger : Nat
  deliveredPassenger : Nat
deriving DecidableEq

/-- Building constructor: initializes the floors (numbered 1..NUM_OF_FLOORS), the
elevators, and the intake queue; records totalPassenger = queue size.  The CSV
reading is replaced by an explicit intake list parameter. -/
def Building.init (numOfFloors numOfElevators elevatorSpeed elevatorStoppingTime : Int)
    (intake : List Passenger) : Building :=
  { NUM_OF_FLOORS := numOfFloors, NUM_OF_ELEVATORS := numOfElevators,
    ELEVATOR_SPEED := elevatorSpeed, ELEVATOR_STOPPING_TIME := elevatorStoppingTime,
    currentTime := 0,
    floors := (List.range numOfFloors.toNat).map
      (fun i => { floorNumber := (i : Int) + 1, waitingPassengers := [],
                  deliveredPassengers := [] }),
    elevators := (List.range numOfElevators.toNat).map
      (fun i => Elevator.make (i : Int) elevatorSpeed elevatorStoppingTime),
    passengers := intake,
    travelTimeStat := { numberList := [] }, waitTimeStat := { numberList := [] },
    totalPassenger := intake.length, deliveredPassenger := 0 }

/-- The intake while-loop of Building::simulate: while the queue's front passenger
has startTime == currentTime, move it to the waiting deque of floors[startFloor-1].
none models the UB of indexing floors out of range. -/
def intakeLoop (currentTime : Int) :
    List Passenger → List Floor → Option (List Passenger × List Floor)
  | [], floors => some ([], floors)
  | p :: rest, floors =>
    if p.startTime == currentTime then
      match floorAt floors p.startFloor with
      | none => none
      | some f =>
        intakeLoop currentTime rest (setFloorAt floors p.startFloor (f.addWaitingPassenger p))
    else some (p :: rest, floors)

/-- Building::allPassengerArrived: no waiting passenger on any floor, no passenger
in any elevator, and an empty intake queue. -/
def Building.allPassengerArrived (b : Building) : Bool :=
  b.floors.all (fun f => !f.hasWaitingPassengers) &&
  (b.elevators.all (fun e => !e.hasPassengers) && b.passengers.isEmpty)

/-- elevators[i].update(...) in Building::simulate: none models an out-of-bounds
vector access or a failing update. -/
def Building.updateElevatorAt (b : Building) (i : Nat) : Option Building :=
  b.elevators[i]?.bind (fun e =>
    (e.update b.currentTime b.NUM_OF_FLOORS b.floors).map (fun r =>
      { b with elevators := b.elevators.set i r.1, floors := r.2 }))

/-- One iteration of the Building::simulate while-loop body: the intake loop, the
staggered elevator updates (elevators 1, 2, 3 only once currentTime reaches 100,
500, 700), then ++currentTime. -/
def Building.tick (b : Building) : Option Building :=
  (intakeLoop b.currentTime b.passengers b.floors).bind (fun q =>
    (({ b with passengers := q.1, floors := q.2 }).updateElevatorAt 0).bind (fun b2 =>
      (if b2.currentTime ≥ 100 then b2.updateElevatorAt 1 else some b2).bind (fun b3 =>
        (if b3.currentTime ≥ 500 then b3.updateElevatorAt 2 else some b3).bind (fun b4 =>
          (if b4.currentTime ≥ 700 then b4.updateElevatorAt 3 else some b4).map
            (fun (b5 : Building) => { b5 with currentTime := b5.currentTime + 1 })))))

/-- The while-loop of Building::simulate, with explicit fuel: the loop condition
is re-evaluated fresh at the top of every tick. -/
def Building.simLoop : Nat → Building → Option Building
  | 0, _ => none
  | fuel + 1, b =>
    if b.allPassengerArrived then some b
    else
      match b.tick with
      | none => none
      | some b2 => Building.simLoop fuel b2

/-- The post-loop statistics pass of Building::simulate: feed every delivered
passenger's travel and wait time to the two Statistic accumulators and count the
delivered passengers. -/
def Building.finalize (b : Building) : Building :=
  let delivered := (b.floors.map (fun f => f.deliveredPassengers)).flatten
  { b with
    travelTimeStat :=
      { numberList := b.travelTimeStat.numberList ++ delivered.map (fun p => p.travelTime) },
    waitTimeStat :=
      { numberList := b.waitTimeStat.numberList ++ delivered.map (fun p => p.waitTime) },
    deliveredPassenger := b.deliveredPassenger + delivered.length }

/-- Outcome of Building::simulate: a normal return, the fatal
"Not all passengers are delivered" throw, or a run that ran out of fuel or hit
out-of-bounds container access. -/
inductive SimResult
  | ok (b : Building)
  | fatal (b : Building)
  | stuck
deriving DecidableEq

/-- Building::simulate: the loop, the statistics pass, then the fatal check that
deliveredPassenger equals totalPassenger. -/
def Building.simulate (b : Building) (fuel : Nat) : SimResult :=
  match b.simLoop fuel with
  | none => SimResult.stuck
  | some b2 =>
    let b3 := b2.finalize
    if b3.totalPassenger != b3.deliveredPassenger then SimResult.fatal b3
    else SimResult.ok b3

/-! ### Derived counters and concrete instances used by the claims -/

/-- Total number of passengers waiting across a list of floors. -/
def floorsWaitingCount (fl : List Floor) : Nat :=
  (fl.map (fun f => f.waitingPassengers.length)).sum

/-- Total number of passengers delivered across a list of floors. -/
def floorsDeliveredCount (fl : List Floor) : Nat :=
  (fl.map (fun f => f.deliveredPassengers.length)).sum

/-- Total number of passengers boarded across a list of elevators. -/
def elevatorsCount (es : List Elevator) : Nat :=
  (es.map (fun e => e.passengers.length)).sum

/-- Total number of passengers anywhere in the building: intake queue, waiting on
a floor, boarded in an elevator, or delivered. -/
def Building.liveCount (b : Building) : Nat :=
  b.passengers.length + floorsWaitingCount b.floors + elevatorsCount b.elevators +
    floorsDeliveredCount b.floors

/-- Five empty floors used as a quiescent building for the C9 counterexample. -/
def fiveEmptyFloors : List Floor :=
  (List.range 5).map
    (fun i => { floorNumber := (i : Int) + 1, waitingPassengers := [],
                deliveredPassengers := [] })

/-- A passenger used to fill the C2 elevator: riding UP from 1 toward floor 5. -/
def c2Pin : Passenger :=
  { passengerID := 1, startTime := 0, startFloor := 1, endFloor := 5,
    direction := ElevatorDirection.UP, waitTime := 0, travelTime := 0 }

/-- A passenger waiting on floor 2 to go UP. -/
def c2Pup : Passenger :=
  { passengerID := 2, startTime := 0, startFloor := 2, endFloor := 4,
    direction := ElevatorDirection.UP, waitTime := 0, travelTime := 0 }

/-- An elevator holding exactly CAPACITY passengers, stopped at floor 2. -/
def fullElevator : Elevator :=
  { elevatorID := 0, currentFloor := 2, nextActionTime := 0, ELEVATOR_SPEED := 10,
    ELEVATOR_STOP_TIME := 2, state := ElevatorState.STOPPED,
    direction := ElevatorDirection.UP, passengers := List.replicate 8 c2Pin }

/-- An elevator holding strictly more than CAPACITY passengers. -/
def overFullElevator : Elevator :=
  { fullElevator with passengers := List.replicate 9 c2Pin }

/-- Floor 2 with one UP-bound waiting passenger. -/
def c2WaitingFloor : Floor :=
  { floorNumber := 2, waitingPassengers := [c2Pup], deliveredPassengers := [] }

/-- The UP-bound passenger waiting at floor 1 in the C3 witness. -/
def c3pW : Passenger :=
  { passengerID := 1, startTime := 0, startFloor := 1, endFloor := 2,
    direction := ElevatorDirection.UP, waitTime := 0, travelTime := 0 }

/-- Floor 1 with the C3 witness passenger waiting. -/
def c3floor1 : Floor :=
  { floorNumber := 1, waitingPassengers := [c3pW], deliveredPassengers := [] }

/-- Empty floor 2 for the C3 witness. -/
def c3floor2 : Floor :=
  { floorNumber := 2, waitingPassengers := [], deliveredPassengers := [] }

/-- The two floors of the C3 witness building. -/
def c3floors : List Floor := [c3floor1, c3floor2]

/-- A DOWN-facing stopped elevator at floor 1. -/
def c3eD : Elevator := { Elevator.make 0 10 2 with direction := ElevatorDirection.DOWN }

/-- A stopped elevator at the top floor of the 2-floor witness building. -/
def c3eTop : Elevator := { Elevator.make 0 10 2 with currentFloor := 2 }

/-- The elevator after the C3 witness update: direction flipped UP, passenger
boarded, moving up. -/
def c3after : Elevator :=
  { c3eD with direction := ElevatorDirection.UP, state := ElevatorState.MOVING_UP,
              nextActionTime := 10, passengers := [c3pW] }

/-- The floors after the C3 witness update: floor 1 emptied. -/
def c3aftFloors : List Floor :=
  [{ c3floor1 with waitingPassengers := [] }, c3floor2]

/-- The MOVING_UP elevator one floor below the top of the 2-floor C8 witness
building, due to move now. -/
def c8Elevator : Elevator := { Elevator.make 0 1 2 with state := ElevatorState.MOVING_UP }

/-- Two empty floors for the C8 witness. -/
def twoEmptyFloors : List Floor :=
  [{ floorNumber := 1, waitingPassengers := [], deliveredPassengers := [] },
   { floorNumber := 2, waitingPassengers := [], deliveredPassengers := [] }]

/-- The C8 witness elevator after its update: reversed at the top floor. -/
def c8After : Elevator :=
  { c8Elevator with currentFloor := 2, state := ElevatorState.MOVING_DOWN,
                    nextActionTime := 1, direction := ElevatorDirection.DOWN }

/-- The passenger arriving at tick 0 for floor 1 in the C7 witness. -/
def c7pA : Passenger :=
  { passengerID := 1, startTime := 0, startFloor := 1, endFloor := 2,
    direction := ElevatorDirection.UP, waitTime := 0, travelTime := 0 }

/-- Floor 1 of the C7 witness building. -/
def c7f1 : Floor :=
  { floorNumber := 1, waitingPassengers := [], deliveredPassengers := [] }

/-- Floor 2 of the C7 witness building. -/
def c7f2 : Floor :=
  { floorNumber := 2, waitingPassengers := [], deliveredPassengers := [] }

/-- The C7 witness floors after intake: the passenger waits on floor 1. -/
def c7fl2 : List Floor :=
  [{ c7f1 with waitingPassengers := [c7pA] }, c7f2]

/-- The single passenger of the C1 witness run (tick 0, floor 1 to floor 2). -/
def c1p : Passenger :=
  { passengerID := 1, startTime := 0, startFloor := 1, endFloor := 2,
    direction := ElevatorDirection.UP, waitTime := 0, travelTime := 0 }

/-- Extracts the building carried by a SimResult (dummy for stuck). -/
def resultBuilding : SimResult → Building
  | SimResult.ok b => b
  | SimResult.fatal b => b
  | SimResult.stuck => Building.init 0 0 0 0 []

/-- Iterated Building::tick, propagating failure: the state of the run after n
loop iterations. -/
def tickIter : Nat → Building → Option Building
  | 0, b => some b
  | n + 1, b => (tickIter n b).bind Building.tick

/-- The late passenger keeping the C10 runs active past tick 100. -/
def c10pLate : Passenger :=
  { passengerID := 1, startTime := 150, startFloor := 1, endFloor := 2,
    direction := ElevatorDirection.UP, waitTime := 0, travelTime := 0 }

/-- A building with one elevator frozen at the loop iteration of tick 100. -/
def c10bStuck : Building :=
  { Building.init 2 1 1 2 [c10pLate] with currentTime := 100 }

/-! ### Shared helper lemmas -/

/-- Setting index i of a list changes the image-sum by replacing g of the old
element with g of the new one (subtraction-free form). -/
theorem sum_map_set {α : Type} (g : α → Nat) (l : List α) (i : Nat) (a b : α)
    (h : l[i]? = some b) :
    ((l.set i a).map g).sum + g b = (l.map g).sum + g a := by
  induction l generalizing i with
  | nil => simp at h
  | cons x xs ih =>
    cases i with
    | zero =>
      simp at h
      subst h
      simp [List.set]
      omega
    | succ j =>
      simp at h
      have := ih j h
      simp only [List.set, List.map_cons, List.sum_cons]
      omega

theorem pickUpLoop_boarded_length (d : ElevatorDirection) (t : Int)
    (w : List Passenger) :
    ∀ boarded : List Passenger, boarded.length ≤ CAPACITY →
      (pickUpLoop d t w boarded).2.length ≤ CAPACITY := by
  induction w with
  | nil => intro boarded h; simpa [pickUpLoop] using h
  | cons p rest ih =>
    intro boarded h
    by_cases hc : boarded.length = CAPACITY
    · simp [pickUpLoop, hc]
    · have hb : (boarded.length == CAPACITY) = false := by
        simp [hc]
      by_cases hd : (p.direction == d) = true
      · have hlen : (boarded ++ [p.calculateWaitTime t]).length ≤ CAPACITY := by
          simp
          omega
        simpa [pickUpLoop, hb, hd] using ih _ hlen
      · have hd2 : (p.direction == d) = false := by
          simpa using hd
        simpa [pickUpLoop, hb, hd2] using ih _ h

theorem pickUpLoop_counts (d : ElevatorDirection) (t : Int) (w : List Passenger) :
    ∀ boarded : List Passenger,
      (pickUpLoop d t w boarded).1.length + (pickUpLoop d t w boarded).2.length =
        w.length + boarded.length := by
  induction w with
  | nil => intro boarded; simp [pickUpLoop]
  | cons p rest ih =>
    intro boarded
    simp only [pickUpLoop]
    by_cases hc : (boarded.length == CAPACITY) = true
    · simp [hc]
    · have hc2 : (boarded.length == CAPACITY) = false := by simpa using hc
      by_cases hd : (p.direction == d) = true
      · have := ih (boarded ++ [p.calculateWaitTime t])
        simp [hc2, hd] at this ⊢
        omega
      · have hd2 : (p.direction == d) = false := by simpa using hd
        have := ih boarded
        simp [hc2, hd2]
        omega

theorem dropOffLoop_fst_le (fn t : Int) (ps : List Passenger) :
    ∀ delivered : List Passenger,
      (dropOffLoop fn t ps delivered).1.length ≤ ps.length := by
  induction ps with
  | nil => intro d; simp [dropOffLoop]
  | cons p rest ih =>
    intro d
    simp only [dropOffLoop]
    split
    · have := ih (d ++ [p.calculateTravelTime t])
      simp only [List.length_cons]
      omega
    · have := ih d
      simp only [List.length_cons]
      omega

theorem dropOffLoop_counts (fn t : Int) (ps : List Passenger) :
    ∀ delivered : List Passenger,
      (dropOffLoop fn t ps delivered).1.length + (dropOffLoop fn t ps delivered).2.length =
        ps.length + delivered.length := by
  induction ps with
  | nil => intro delivered; simp [dropOffLoop]
  | cons p rest ih =>
    intro delivered
    simp only [dropOffLoop]
    by_cases he : (p.endFloor == fn) = true
    · have := ih (delivered ++ [p.calculateTravelTime t])
      simp [he] at this ⊢
      omega
    · have he2 : (p.endFloor == fn) = false := by simpa using he
      have := ih delivered
      simp [he2]
      omega

theorem dropOffPassengers_waiting (e : Elevator) (f : Floor) (t : Int) :
    (e.dropOffPassengers f t).2.waitingPassengers = f.waitingPassengers := by
  rw [Elevator.dropOffPassengers]

theorem dropOffPassengers_floorNumber (e : Elevator) (f : Floor) (t : Int) :
    (e.dropOffPassengers f t).2.floorNumber = f.floorNumber := by
  rw [Elevator.dropOffPassengers]

theorem dropOffPassengers_counts (e : Elevator) (f : Floor) (t : Int) :
    (e.dropOffPassengers f t).1.passengers.length +
        (e.dropOffPassengers f t).2.deliveredPassengers.length =
      e.passengers.length + f.deliveredPassengers.length := by
  rw [Elevator.dropOffPassengers]
  exact dropOffLoop_counts f.floorNumber t e.passengers f.deliveredPassengers

theorem dropOffPassengers_length_le (e : Elevator) (f : Floor) (t : Int) :
    (e.dropOffPassengers f t).1.passengers.length ≤ e.passengers.length := by
  rw [Elevator.dropOffPassengers]
  exact dropOffLoop_fst_le f.floorNumber t e.passengers f.deliveredPassengers

theorem pickUpPassengers_delivered (e : Elevator) (f : Floor) (t : Int) :
    (e.pickUpPassengers f t).2.deliveredPassengers = f.deliveredPassengers := by
  rw [Elevator.pickUpPassengers]

theorem pickUpPassengers_floorNumber (e : Elevator) (f : Floor) (t : Int) :
    (e.pickUpPassengers f t).2.floorNumber = f.floorNumber := by
  rw [Elevator.pickUpPassengers]

theorem pickUpPassengers_counts (e : Elevator) (f : Floor) (t : Int) :
    (e.pickUpPassengers f t).1.passengers.length +
        (e.pickUpPassengers f t).2.waitingPassengers.length =
      e.passengers.length + f.waitingPassengers.length := by
  rw [Elevator.pickUpPassengers]
  have := pickUpLoop_counts e.direction t f.waitingPassengers e.passengers
  simp only
  omega

theorem pickUpPassengers_le (e : Elevator) (f : Floor) (t : Int)
    (h : e.passengers.length ≤ CAPACITY) :
    (e.pickUpPassengers f t).1.passengers.length ≤ CAPACITY := by
  rw [Elevator.pickUpPassengers]
  exact pickUpLoop_boarded_length e.direction t f.waitingPassengers e.passengers h

theorem chooseMove_passengers (e : Elevator) (t NF : Int) :
    (e.chooseMove t NF).passengers = e.passengers := by
  rw [Elevator.chooseMove]
  split
  · rfl
  · split
    · rfl
    · split
      · rfl
      · split <;> rfl

theorem chooseMove_currentFloor (e : Elevator) (t NF : Int) :
    (e.chooseMove t NF).currentFloor = e.currentFloor := by
  rw [Elevator.chooseMove]
  split
  · rfl
  · split
    · rfl
    · split
      · rfl
      · split <;> rfl

theorem chooseMove_state (e : Elevator) (t NF : Int) :
    (e.chooseMove t NF).state = ElevatorState.MOVING_UP ∨
      (e.chooseMove t NF).state = ElevatorState.MOVING_DOWN := by
  rw [Elevator.chooseMove]
  cases hd : e.direction with
  | UP =>
    by_cases hc : e.currentFloor = NF
    · simp [hd, hc]
    · simp [hd, hc]
  | DOWN =>
    by_cases hc : e.currentFloor = 1
    · simp [hd, hc]
    · simp [hd, hc]

theorem chooseMove_direction (e : Elevator) (t NF : Int)
    (h : (e.chooseMove t NF).direction ≠ e.direction) :
    e.currentFloor = 1 ∨ e.currentFloor = NF := by
  rw [Elevator.chooseMove] at h
  cases hd : e.direction with
  | UP =>
    by_cases hc : e.currentFloor = NF
    · exact Or.inr hc
    · rw [hd] at h
      simp [hc] at h
  | DOWN =>
    by_cases hc : e.currentFloor = 1
    · exact Or.inl hc
    · rw [hd] at h
      simp [hc] at h

/-- The terminal-floor direction fixup preserves the boarded passengers. -/
theorem fixup_passengers (e : Elevator) (NF : Int) :
    (if e.currentFloor == 1 then { e with direction := ElevatorDirection.UP }
     else if e.currentFloor == NF then { e with direction := ElevatorDirection.DOWN }
     else e).passengers = e.passengers := by
  split
  · rfl
  · split <;> rfl

theorem stoppedCore_passengers_le (e : Elevator) (t NF : Int) (floor0 : Floor)
    (h : e.passengers.length ≤ CAPACITY) :
    (e.stoppedCore t NF floor0).1.passengers.length ≤ CAPACITY := by
  rw [Elevator.stoppedCore]
  simp only [chooseMove_passengers]
  set r1 := if e.passengers.isEmpty then (e, floor0)
            else e.dropOffPassengers floor0 t with hr1
  have h1 : r1.1.passengers.length ≤ CAPACITY := by
    rw [hr1]
    split
    · exact h
    · exact le_trans (dropOffPassengers_length_le e floor0 t) h
  set e2 := if r1.1.currentFloor == 1 then { r1.1 with direction := ElevatorDirection.UP }
            else if r1.1.currentFloor == NF then
              { r1.1 with direction := ElevatorDirection.DOWN }
            else r1.1 with he2
  have h2 : e2.passengers.length ≤ CAPACITY := by
    rw [he2, fixup_passengers]
    exact h1
  split
  · exact h2
  · exact pickUpPassengers_le e2 r1.2 t h2

theorem stoppedCore_counts (e : Elevator) (t NF : Int) (floor0 : Floor) :
    (e.stoppedCore t NF floor0).1.passengers.length +
        (e.stoppedCore t NF floor0).2.waitingPassengers.length +
        (e.stoppedCore t NF floor0).2.deliveredPassengers.length =
      e.passengers.length + floor0.waitingPassengers.length +
        floor0.deliveredPassengers.length := by
  rw [Elevator.stoppedCore]
  simp only [chooseMove_passengers]
  set r1 := if e.passengers.isEmpty then (e, floor0)
            else e.dropOffPassengers floor0 t with hr1
  have h1 : r1.1.passengers.length + r1.2.deliveredPassengers.length =
      e.passengers.length + floor0.deliveredPassengers.length ∧
      r1.2.waitingPassengers = floor0.waitingPassengers := by
    rw [hr1]
    split
    · exact ⟨rfl, rfl⟩
    · exact ⟨dropOffPassengers_counts e floor0 t, dropOffPassengers_waiting e floor0 t⟩
  set e2 := if r1.1.currentFloor == 1 then { r1.1 with direction := ElevatorDirection.UP }
            else if r1.1.currentFloor == NF then
              { r1.1 with direction := ElevatorDirection.DOWN }
            else r1.1 with he2
  have h2 : e2.passengers = r1.1.passengers := by
    rw [he2, fixup_passengers]
  have h5 := h1.1
  have h6 : e2.passengers.length = r1.1.passengers.length := by rw [h2]
  have h7 : r1.2.waitingPassengers.length = floor0.waitingPassengers.length := by
    rw [h1.2]
  split
  · dsimp only
    omega
  · have h3 := pickUpPassengers_counts e2 r1.2 t
    have h4 : (e2.pickUpPassengers r1.2 t).2.deliveredPassengers.length =
        r1.2.deliveredPassengers.length := by
      rw [pickUpPassengers_delivered]
    omega

theorem floorAt_getElem (floors : List Floor) (cf : Int) (f : Floor)
    (h : floorAt floors cf = some f) :
    floors[(cf - 1).toNat]? = some f := by
  rw [floorAt] at h
  split at h
  · exact absurd h (by simp)
  · exact h

theorem updateStopping_passengers (e : Elevator) (t : Int) :
    (e.updateStopping t).passengers = e.passengers := by
  rw [Elevator.updateStopping]
  split <;> rfl

theorem updateMovingUp_shape (e : Elevator) (t NF : Int) (floors : List Floor)
    (e2 : Elevator) (fl2 : List Floor)
    (h : e.updateMovingUp t NF floors = some (e2, fl2)) :
    e2.passengers = e.passengers ∧ fl2 = floors := by
  rw [Elevator.updateMovingUp] at h
  split at h
  · rw [Option.map_eq_some'] at h
    obtain ⟨floor, hf, hsome⟩ := h
    split at hsome
    · injection hsome with h1 h2
      exact ⟨by rw [← h1], h2.symm⟩
    · split at hsome
      · injection hsome with h1 h2
        exact ⟨by rw [← h1], h2.symm⟩
      · injection hsome with h1 h2
        exact ⟨by rw [← h1], h2.symm⟩
  · simp only [Option.some.injEq, Prod.mk.injEq] at h
    exact ⟨by rw [← h.1], h.2.symm⟩

theorem updateMovingDown_shape (e : Elevator) (t NF : Int) (floors : List Floor)
    (e2 : Elevator) (fl2 : List Floor)
    (h : e.updateMovingDown t NF floors = some (e2, fl2)) :
    e2.passengers = e.passengers ∧ fl2 = floors := by
  rw [Elevator.updateMovingDown] at h
  split at h
  · rw [Option.map_eq_some'] at h
    obtain ⟨floor, hf, hsome⟩ := h
    split at hsome
    · injection hsome with h1 h2
      exact ⟨by rw [← h1], h2.symm⟩
    · split at hsome
      · injection hsome with h1 h2
        exact ⟨by rw [← h1], h2.symm⟩
      · injection hsome with h1 h2
        exact ⟨by rw [← h1], h2.symm⟩
  · simp only [Option.some.injEq, Prod.mk.injEq] at h
    exact ⟨by rw [← h.1], h.2.symm⟩

theorem updateStopped_shape (e : Elevator) (t NF : Int) (floors : List Floor)
    (e2 : Elevator) (fl2 : List Floor)
    (h : e.updateStopped t NF floors = some (e2, fl2)) :
    ∃ floor0, floorAt floors e.currentFloor = some floor0 ∧
      e2 = (e.stoppedCore t NF floor0).1 ∧
      fl2 = setFloorAt floors e.currentFloor (e.stoppedCore t NF floor0).2 := by
  rw [Elevator.updateStopped] at h
  cases hf : floorAt floors e.currentFloor with
  | none => rw [hf] at h; exact absurd h (by simp)
  | some floor0 =>
    rw [hf] at h
    simp only [Option.some.injEq, Prod.mk.injEq] at h
    exact ⟨floor0, rfl, h.1.symm, h.2.symm⟩

/-- Every successful Elevator::update keeps the boarded-passenger bound. -/
theorem update_capacity (e : Elevator) (t NF : Int) (floors : List Floor)
    (e2 : Elevator) (fl2 : List Floor)
    (hcap : e.passengers.length ≤ CAPACITY)
    (h : e.update t NF floors = some (e2, fl2)) :
    e2.passengers.length ≤ CAPACITY := by
  rw [Elevator.update] at h
  cases hs : e.state
  case STOPPED =>
    rw [hs] at h
    obtain ⟨floor0, _, he2, _⟩ := updateStopped_shape e t NF floors e2 fl2 h
    rw [he2]
    exact stoppedCore_passengers_le e t NF floor0 hcap
  case STOPPING =>
    rw [hs] at h
    simp only [Option.some.injEq, Prod.mk.injEq] at h
    rw [← h.1, updateStopping_passengers]
    exact hcap
  case MOVING_UP =>
    rw [hs] at h
    rw [(updateMovingUp_shape e t NF floors e2 fl2 h).1]
    exact hcap
  case MOVING_DOWN =>
    rw [hs] at h
    rw [(updateMovingDown_shape e t NF floors e2 fl2 h).1]
    exact hcap

/-- Every successful Elevator::update preserves the total passenger count spread
over the elevator and the floors. -/
theorem update_counts (e : Elevator) (t NF : Int) (floors : List Floor)
    (e2 : Elevator) (fl2 : List Floor)
    (h : e.update t NF floors = some (e2, fl2)) :
    e2.passengers.length + floorsWaitingCount fl2 + floorsDeliveredCount fl2 =
      e.passengers.length + floorsWaitingCount floors + floorsDeliveredCount floors := by
  rw [Elevator.update] at h
  cases hs : e.state
  case STOPPED =>
    rw [hs] at h
    obtain ⟨floor0, hf, he2, hfl⟩ := updateStopped_shape e t NF floors e2 fl2 h
    have hget := floorAt_getElem floors e.currentFloor floor0 hf
    have hW := sum_map_set (fun f => f.waitingPassengers.length) floors
      (e.currentFloor - 1).toNat (e.stoppedCore t NF floor0).2 floor0 hget
    have hD := sum_map_set (fun f => f.deliveredPassengers.length) floors
      (e.currentFloor - 1).toNat (e.stoppedCore t NF floor0).2 floor0 hget
    have hcore := stoppedCore_counts e t NF floor0
    rw [he2, hfl]
    simp only [floorsWaitingCount, floorsDeliveredCount, setFloorAt] at *
    omega
  case STOPPING =>
    rw [hs] at h
    simp only [Option.some.injEq, Prod.mk.injEq] at h
    rw [← h.1, ← h.2, updateStopping_passengers]
  case MOVING_UP =>
    rw [hs] at h
    have := updateMovingUp_shape e t NF floors e2 fl2 h
    rw [this.1, this.2]
  case MOVING_DOWN =>
    rw [hs] at h
    have := updateMovingDown_shape e t NF floors e2 fl2 h
    rw [this.1, this.2]

theorem updateElevatorAt_shape (b : Building) (i : Nat) (b2 : Building)
    (h : b.updateElevatorAt i = some b2) :
    ∃ e r, b.elevators[i]? = some e ∧
      e.update b.currentTime b.NUM_OF_FLOORS b.floors = some r ∧
      b2 = { b with elevators := b.elevators.set i r.1, floors := r.2 } := by
  rw [Building.updateElevatorAt] at h
  simp only [Option.bind_eq_some, Option.map_eq_some'] at h
  obtain ⟨e, he, r, hr, h⟩ := h
  exact ⟨e, r, he, hr, h.symm⟩

/-- Generic preservation of a property through one Building::simulate loop
iteration. -/
theorem tick_preserves (P : Building → Prop) (b b2 : Building)
    (hP : P b)
    (hstepI : ∀ c q fl, P c → intakeLoop c.currentTime c.passengers c.floors = some (q, fl) →
      P { c with passengers := q, floors := fl })
    (hstepE : ∀ c c2 i, P c → c.updateElevatorAt i = some c2 → P c2)
    (hstepT : ∀ c, P c → P { c with currentTime := c.currentTime + 1 })
    (h : b.tick = some b2) : P b2 := by
  rw [Building.tick] at h
  simp only [Option.bind_eq_some, Option.map_eq_some'] at h
  obtain ⟨q, hq, c2, h0, c3, h1, c4, h2, c5, h3, h⟩ := h
  have hP1 : P { b with passengers := q.1, floors := q.2 } := hstepI b q.1 q.2 hP hq
  have hP2 : P c2 := hstepE _ c2 0 hP1 h0
  have hP3 : P c3 := by
    split at h1
    · exact hstepE c2 c3 1 hP2 h1
    · injection h1 with h1e
      exact h1e ▸ hP2
  have hP4 : P c4 := by
    split at h2
    · exact hstepE c3 c4 2 hP3 h2
    · injection h2 with h2e
      exact h2e ▸ hP3
  have hP5 : P c5 := by
    split at h3
    · exact hstepE c4 c5 3 hP4 h3
    · injection h3 with h3e
      exact h3e ▸ hP4
  rw [← h]
  exact hstepT c5 hP5

/-- Generic preservation of a property through the whole simulate loop. -/
theorem simLoop_preserves (P : Building → Prop)
    (hstep : ∀ c c2, P c → c.tick = some c2 → P c2) :
    ∀ fuel (b b2 : Building), P b → b.simLoop fuel = some b2 → P b2 := by
  intro fuel
  induction fuel with
  | zero => intro b b2 _ h; exact absurd h (by simp [Building.simLoop])
  | succ n ih =>
    intro b b2 hP h
    rw [Building.simLoop] at h
    split at h
    · cases h; exact hP
    · cases ht : b.tick with
      | none => rw [ht] at h; exact absurd h (by simp)
      | some c => rw [ht] at h; exact ih c b2 (hstep b c hP ht) h

/-! ### C4: degenerate-trip rejection -/

/-- C4 counterexample: the claim says a Passenger whose startFloor equals its
endFloor fails to construct with an invalid-argument error, but
Passenger(1, 0, 1, 1) is accepted: the constructor validates only that each floor
is within [1, 100], and start == end yields direction DOWN. -/
theorem c4_counterexample :
    Passenger.make 1 0 1 1 =
      Except.ok
        { passengerID := 1, startTime := 0, startFloor := 1, endFloor := 1,
          direction := ElevatorDirection.DOWN, waitTime := 0, travelTime := 0 } := by
  rfl

/-- C4 (amended): constructing a Passenger with startFloor = endFloor = f succeeds
for every floor f within [1, 100] (with direction DOWN); only floor numbers
outside [1, 100] are rejected at construction. -/
theorem c4_amended (id t f : Int) (h1 : 1 ≤ f) (h2 : f ≤ 100) :
    Passenger.make id t f f =
      Except.ok
        { passengerID := id, startTime := t, startFloor := f, endFloor := f,
          direction := ElevatorDirection.DOWN, waitTime := 0, travelTime := 0 } := by
  have hcond : (f < 1 || f > 100 || f < 1 || f > 100) = false := by
    simp
    omega
  simp [Passenger.make, hcond]

/-- C4 amended witness: the degenerate trip (2, 2) is accepted concretely. -/
theorem c4_amended_witness :
    Passenger.make 7 3 2 2 =
      Except.ok
        { passengerID := 7, startTime := 3, startFloor := 2, endFloor := 2,
          direction := ElevatorDirection.DOWN, waitTime := 0, travelTime := 0 } :=
  c4_amended 7 3 2 (by decide) (by decide)

/-! ### C9: idle elevator stays stopped -/

/-- C9 counterexample: a freshly constructed elevator (STOPPED at floor 1, no
boarded passengers) updated in a building with no waiting passenger anywhere does
not remain STOPPED: it transitions to MOVING_UP. -/
theorem c9_counterexample :
    ((Elevator.make 0 10 2).update 0 5 fiveEmptyFloors).map (fun r => r.1.state) =
        some ElevatorState.MOVING_UP ∧
      ElevatorState.MOVING_UP ≠ ElevatorState.STOPPED := by
  exact ⟨by rfl, by decide⟩

/-- C9 (amended): update on an elevator in the STOPPED state never leaves it
STOPPED: whenever the update succeeds it transitions to MOVING_UP or MOVING_DOWN,
even with no boarded passenger and no waiting passenger anywhere; the elevator
patrols the shaft rather than idling. -/
theorem c9_amended (e : Elevator) (t NF : Int) (floors : List Floor)
    (e2 : Elevator) (fl2 : List Floor)
    (h : e.state = ElevatorState.STOPPED)
    (h2 : e.update t NF floors = some (e2, fl2)) :
    e2.state = ElevatorState.MOVING_UP ∨ e2.state = ElevatorState.MOVING_DOWN := by
  rw [Elevator.update, h, Elevator.updateStopped] at h2
  cases hf : floorAt floors e.currentFloor with
  | none => rw [hf] at h2; exact absurd h2 (by simp)
  | some floor0 =>
    rw [hf] at h2
    simp only [Option.some.injEq, Prod.mk.injEq] at h2
    have he2 : e2 = (e.stoppedCore t NF floor0).1 := h2.1.symm
    rw [he2, Elevator.stoppedCore]
    exact chooseMove_state _ t NF

/-- C9 amended witness: the concrete idle elevator of the counterexample indeed
ends in a moving state. -/
theorem c9_amended_witness :
    ({ elevatorID := 0, currentFloor := 1, nextActionTime := 10,
       ELEVATOR_SPEED := 10, ELEVATOR_STOP_TIME := 2,
       state := ElevatorState.MOVING_UP, direction := ElevatorDirection.UP,
       passengers := [] } : Elevator).state = ElevatorState.MOVING_UP ∨
    ({ elevatorID := 0, currentFloor := 1, nextActionTime := 10,
       ELEVATOR_SPEED := 10, ELEVATOR_STOP_TIME := 2,
       state := ElevatorState.MOVING_UP, direction := ElevatorDirection.UP,
       passengers := [] } : Elevator).state = ElevatorState.MOVING_DOWN :=
  c9_amended (Elevator.make 0 10 2) 0 5 fiveEmptyFloors _ fiveEmptyFloors rfl rfl

/-! ### C2: capacity bound -/

theorem pickUpLoop_full (d : ElevatorDirection) (t : Int) (w : List Passenger)
    (boarded : List Passenger) (h : boarded.length = CAPACITY) :
    pickUpLoop d t w boarded = (w, boarded) := by
  cases w with
  | nil => simp [pickUpLoop]
  | cons p rest => simp [pickUpLoop, h]

/-- C2 counterexample: the claim says shouldStopAtFloor never causes a stop for
waiting passengers when the elevator is full, but an elevator holding exactly
CAPACITY (8) passengers, none of whom disembarks at floor 2, still reports a stop
at floor 2 for a same-direction waiting passenger: the guard in the source reads
`passengers.size() > CAPACITY`, not `>=`. -/
theorem c2_counterexample :
    fullElevator.passengers.length = CAPACITY ∧
    (∀ p ∈ fullElevator.passengers, p.endFloor ≠ c2WaitingFloor.floorNumber) ∧
    fullElevator.shouldStopAtFloor c2WaitingFloor = true := by
  exact ⟨by decide, by decide, by decide⟩

/-- C2 (amended): every elevator starts within capacity and every simulate tick
preserves the bound (so at every tick of every run every elevator holds at most
CAPACITY = 8 passengers), and pickUpPassengers at exact capacity boards nobody;
however, shouldStopAtFloor suppresses a stop for waiting passengers only when the
boarded count strictly exceeds CAPACITY — at exactly CAPACITY it still stops
(and then boards nobody). -/
theorem c2_amended :
    (∀ (nf ne sp st : Int) (intake : List Passenger),
      ∀ e ∈ (Building.init nf ne sp st intake).elevators,
        e.passengers.length ≤ CAPACITY) ∧
    (∀ b b2 : Building, (∀ e ∈ b.elevators, e.passengers.length ≤ CAPACITY) →
      b.tick = some b2 → ∀ e ∈ b2.elevators, e.passengers.length ≤ CAPACITY) ∧
    (∀ (e : Elevator) (f : Floor) (t : Int), e.passengers.length = CAPACITY →
      e.pickUpPassengers f t = (e, f)) ∧
    (∀ (e : Elevator) (f : Floor), e.passengers.length > CAPACITY →
      (∀ p ∈ e.passengers, p.endFloor ≠ f.floorNumber) →
      e.shouldStopAtFloor f = false) := by
  refine ⟨?_, ?_, ?_, ?_⟩
  · intro nf ne sp st intake e he
    rw [Building.init] at he
    simp only [List.mem_map] at he
    obtain ⟨i, _, hei⟩ := he
    rw [← hei, Elevator.make]
    simp [CAPACITY]
  · intro b b2 hcap htick
    refine tick_preserves (fun c => ∀ e ∈ c.elevators, e.passengers.length ≤ CAPACITY)
      b b2 hcap ?_ ?_ ?_ htick
    · intro c q fl hPc _
      exact hPc
    · intro c c2 i hPc hup
      obtain ⟨e0, r, he0, hr, hb2⟩ := updateElevatorAt_shape c i c2 hup
      rw [hb2]
      intro e he
      rcases List.mem_or_eq_of_mem_set he with hmem | heq
      · exact hPc e hmem
      · rw [heq]
        have he0mem : e0 ∈ c.elevators := by
          have := List.getElem?_eq_some_iff.mp he0
          obtain ⟨hlt, hget⟩ := this
          exact hget ▸ List.getElem_mem hlt
        exact update_capacity e0 c.currentTime c.NUM_OF_FLOORS c.floors r.1 r.2
          (hPc e0 he0mem) hr
    · intro c hPc
      exact hPc
  · intro e f t h
    rw [Elevator.pickUpPassengers, pickUpLoop_full e.direction t f.waitingPassengers
      e.passengers h]
  · intro e f hover hend
    rw [Elevator.shouldStopAtFloor]
    have h1 : e.passengers.any (fun p => p.endFloor == f.floorNumber) = false := by
      rw [List.any_eq_false]
      intro p hp
      simpa using hend p hp
    rw [h1]
    simp only [Bool.false_eq_true, if_false]
    rw [if_pos hover]

/-- C2 amended witness: concrete instances of all four conjuncts — the initial
elevator bound, tick preservation on a concrete building, the full-elevator
pickup no-op, and the over-capacity stop suppression. -/
theorem c2_amended_witness :
    (∀ e ∈ (Building.init 2 1 1 2 []).elevators, e.passengers.length ≤ CAPACITY) ∧
    (∀ e ∈ (((Building.init 2 1 1 2 []).tick).getD (Building.init 2 1 1 2 [])).elevators,
      e.passengers.length ≤ CAPACITY) ∧
    fullElevator.pickUpPassengers c2WaitingFloor 0 = (fullElevator, c2WaitingFloor) ∧
    overFullElevator.shouldStopAtFloor c2WaitingFloor = false := by
  refine ⟨c2_amended.1 2 1 1 2 [], ?_, ?_, ?_⟩
  · exact c2_amended.2.1 (Building.init 2 1 1 2 [])
      (((Building.init 2 1 1 2 []).tick).getD (Building.init 2 1 1 2 []))
      (c2_amended.1 2 1 1 2 []) (by decide)
  · exact c2_amended.2.2.1 fullElevator c2WaitingFloor 0 (by decide)
  · exact c2_amended.2.2.2 overFullElevator c2WaitingFloor (by decide) (by decide)

/-! ### C5: termination condition -/

/-- C5: Building::allPassengerArrived returns true exactly when the intake queue
is empty, no floor has a waiting passenger and no elevator holds a passenger; and
the simulate loop re-evaluates it fresh at the top of every iteration, exiting
exactly when it holds. -/
theorem c5_termination_condition (b : Building) (n : Nat) :
    (b.allPassengerArrived = true ↔
      ((∀ f ∈ b.floors, f.waitingPassengers = []) ∧
       (∀ e ∈ b.elevators, e.passengers = []) ∧ b.passengers = [])) ∧
    b.simLoop (n + 1) =
      (if b.allPassengerArrived then some b
       else Option.bind b.tick (Building.simLoop n)) := by
  constructor
  · rw [Building.allPassengerArrived]
    simp [Floor.hasWaitingPassengers, Elevator.hasPassengers, List.all_eq_true,
      List.isEmpty_iff, and_assoc]
  · rw [Building.simLoop]
    split
    · rfl
    · cases b.tick <;> rfl

/-- C5 witness: on a concrete quiescent building the condition holds and the loop
exits immediately with it. -/
theorem c5_termination_condition_witness :
    (Building.init 2 1 1 2 []).allPassengerArrived = true ∧
    (Building.init 2 1 1 2 []).simLoop 1 = some (Building.init 2 1 1 2 []) := by
  constructor
  · exact (c5_termination_condition (Building.init 2 1 1 2 []) 0).1.mpr
      (by refine ⟨?_, ?_, rfl⟩ <;> decide)
  · have h := (c5_termination_condition (Building.init 2 1 1 2 []) 0).2
    rw [h]
    rw [if_pos (by decide)]

/-! ### C6: empty-input run -/

theorem init_floors_empty (nf ne sp st : Int) (intake : List Passenger) :
    ∀ f ∈ (Building.init nf ne sp st intake).floors,
      f.waitingPassengers = [] ∧ f.deliveredPassengers = [] := by
  intro f hf
  rw [Building.init] at hf
  simp only [List.mem_map] at hf
  obtain ⟨i, _, hfi⟩ := hf
  rw [← hfi]
  exact ⟨rfl, rfl⟩

theorem init_elevators_empty (nf ne sp st : Int) (intake : List Passenger) :
    ∀ e ∈ (Building.init nf ne sp st intake).elevators, e.passengers = [] := by
  intro e he
  rw [Building.init] at he
  simp only [List.mem_map] at he
  obtain ⟨i, _, hei⟩ := he
  rw [← hei, Elevator.make]

theorem init_arrived (nf ne sp st : Int) :
    (Building.init nf ne sp st []).allPassengerArrived = true := by
  rw [Building.allPassengerArrived]
  have h1 : (Building.init nf ne sp st []).floors.all
      (fun f => !f.hasWaitingPassengers) = true := by
    rw [List.all_eq_true]
    intro f hf
    have := (init_floors_empty nf ne sp st [] f hf).1
    simp [Floor.hasWaitingPassengers, this]
  have h2 : (Building.init nf ne sp st []).elevators.all
      (fun e => !e.hasPassengers) = true := by
    rw [List.all_eq_true]
    intro e he
    have := init_elevators_empty nf ne sp st [] e he
    simp [Elevator.hasPassengers, this]
  rw [h1, h2]
  rfl

theorem init_delivered_flatten (nf ne sp st : Int) (intake : List Passenger) :
    ((Building.init nf ne sp st intake).floors.map
      (fun f => f.deliveredPassengers)).flatten = [] := by
  rw [List.flatten_eq_nil_iff]
  intro l hl
  simp only [List.mem_map] at hl
  obtain ⟨f, hf, hfl⟩ := hl
  rw [← hfl]
  exact (init_floors_empty nf ne sp st intake f hf).2

/-- C6: a building whose intake feed holds zero passengers terminates at once:
the loop body never runs (the final state is the initial state, currentTime = 0),
the delivered count is 0, and both statistics report the empty-list quiet NaN. -/
theorem c6_empty_run (nf ne sp st : Int) (fuel : Nat) :
    (Building.init nf ne sp st []).simulate (fuel + 1) =
        SimResult.ok ((Building.init nf ne sp st []).finalize) ∧
    ((Building.init nf ne sp st []).finalize).currentTime = 0 ∧
    ((Building.init nf ne sp st []).finalize).deliveredPassenger = 0 ∧
    ((Building.init nf ne sp st []).finalize).waitTimeStat.getAverage = AvgResult.nan ∧
    ((Building.init nf ne sp st []).finalize).travelTimeStat.getAverage =
      AvgResult.nan := by
  have hflat := init_delivered_flatten nf ne sp st []
  have hdel : ((Building.init nf ne sp st []).finalize).deliveredPassenger = 0 := by
    rw [Building.finalize]
    simp only [hflat]
    rfl
  have hwait : ((Building.init nf ne sp st []).finalize).waitTimeStat.getAverage =
      AvgResult.nan := by
    rw [Building.finalize]
    simp only [hflat]
    rfl
  have htravel : ((Building.init nf ne sp st []).finalize).travelTimeStat.getAverage =
      AvgResult.nan := by
    rw [Building.finalize]
    simp only [hflat]
    rfl
  refine ⟨?_, rfl, hdel, hwait, htravel⟩
  rw [Building.simulate]
  have hloop : (Building.init nf ne sp st []).simLoop (fuel + 1) =
      some (Building.init nf ne sp st []) := by
    rw [Building.simLoop, if_pos (init_arrived nf ne sp st)]
  rw [hloop]
  simp only
  have hne : (((Building.init nf ne sp st []).finalize).totalPassenger !=
      ((Building.init nf ne sp st []).finalize).deliveredPassenger) = false := by
    rw [hdel]
    rfl
  rw [hne]
  simp

/-! ### C3: terminal-floor pickup -/

theorem mem_pickUpLoop_boarded (d : ElevatorDirection) (t : Int) (w : List Passenger) :
    ∀ (boarded : List Passenger) (a : Passenger), a ∈ boarded →
      a ∈ (pickUpLoop d t w boarded).2 := by
  induction w with
  | nil =>
    intro boarded a ha
    simpa [pickUpLoop] using ha
  | cons p rest ih =>
    intro boarded a ha
    simp only [pickUpLoop]
    split
    · exact ha
    · split
      · exact ih _ a (List.mem_append_left _ ha)
      · exact ih boarded a ha

theorem stoppedCore_direction_at_1 (e : Elevator) (d : ElevatorDirection)
    (t NF : Int) (floor0 : Floor) (h1 : e.currentFloor = 1) :
    Elevator.stoppedCore { e with direction := d } t NF floor0 =
      e.stoppedCore t NF floor0 := by
  rw [Elevator.stoppedCore, Elevator.stoppedCore]
  simp only [Elevator.dropOffPassengers, Elevator.pickUpPassengers, h1]
  split <;> simp [h1]

theorem c3_pre (e : Elevator) (t NF : Int) (floors : List Floor)
    (h : e.state = ElevatorState.STOPPED) (h1 : e.currentFloor = 1) :
    e.update t NF floors =
      Elevator.update { e with direction := ElevatorDirection.UP } t NF floors := by
  rw [Elevator.update, Elevator.update]
  simp only [h]
  rw [Elevator.updateStopped, Elevator.updateStopped]
  simp only
  cases hf : floorAt floors e.currentFloor with
  | none => rfl
  | some floor0 =>
    have hcore := stoppedCore_direction_at_1 e ElevatorDirection.UP t NF floor0 h1
    simp only
    rw [← h, hcore]

theorem stoppedCore_direction_at_NF (e : Elevator) (d : ElevatorDirection)
    (t NF : Int) (floor0 : Floor) (h1 : e.currentFloor = NF)
    (h2 : e.currentFloor ≠ 1) :
    Elevator.stoppedCore { e with direction := d } t NF floor0 =
      e.stoppedCore t NF floor0 := by
  have h3 : NF ≠ 1 := h1 ▸ h2
  rw [Elevator.stoppedCore, Elevator.stoppedCore]
  simp only [Elevator.dropOffPassengers, Elevator.pickUpPassengers, h1]
  split <;> simp [h1, h3]

theorem c3_preNF (e : Elevator) (t NF : Int) (floors : List Floor)
    (h : e.state = ElevatorState.STOPPED) (h1 : e.currentFloor = NF)
    (h2 : e.currentFloor ≠ 1) :
    e.update t NF floors =
      Elevator.update { e with direction := ElevatorDirection.DOWN } t NF floors := by
  rw [Elevator.update, Elevator.update]
  simp only [h]
  rw [Elevator.updateStopped, Elevator.updateStopped]
  simp only
  cases hf : floorAt floors e.currentFloor with
  | none => rfl
  | some floor0 =>
    have hcore := stoppedCore_direction_at_NF e ElevatorDirection.DOWN t NF floor0 h1 h2
    simp only
    rw [← h, hcore]

theorem c3_board (e : Elevator) (t NF : Int) (floors : List Floor)
    (h : e.state = ElevatorState.STOPPED) (h1 : e.currentFloor = 1)
    (hemp : e.passengers = [])
    (f : Floor) (p : Passenger) (rest : List Passenger)
    (hf : floorAt floors 1 = some f) (hw : f.waitingPassengers = p :: rest)
    (hpd : p.direction = ElevatorDirection.UP)
    (e2 : Elevator) (fl2 : List Floor)
    (hupd : e.update t NF floors = some (e2, fl2)) :
    p.calculateWaitTime t ∈ e2.passengers := by
  rw [Elevator.update, h] at hupd
  obtain ⟨floor0, hf0, he2, _⟩ := updateStopped_shape e t NF floors e2 fl2 hupd
  rw [h1, hf] at hf0
  injection hf0 with hf0e
  subst hf0e
  rw [he2, Elevator.stoppedCore]
  simp only [chooseMove_passengers]
  simp [hemp, h1, hw, hpd, Elevator.pickUpPassengers, pickUpLoop, CAPACITY]
  exact mem_pickUpLoop_boarded ElevatorDirection.UP t rest
    [p.calculateWaitTime t] (p.calculateWaitTime t) (by simp)

/-- C3: when an elevator processes the STOPPED state at a terminal floor, its
direction is forced to the only outward direction (UP at floor 1, DOWN at the top
floor) before pickUpPassengers runs — the update result is independent of the
arriving direction — and consequently a passenger waiting at floor 1 to go UP is
boarded at that stop even if the elevator arrived going DOWN. -/
theorem c3_terminal_pickup (e : Elevator) (t NF : Int) (floors : List Floor)
    (h : e.state = ElevatorState.STOPPED) :
    (e.currentFloor = 1 →
      e.update t NF floors =
        Elevator.update { e with direction := ElevatorDirection.UP } t NF floors) ∧
    (e.currentFloor = NF → e.currentFloor ≠ 1 →
      e.update t NF floors =
        Elevator.update { e with direction := ElevatorDirection.DOWN } t NF floors) ∧
    (∀ (f : Floor) (p : Passenger) (rest : List Passenger) (e2 : Elevator)
        (fl2 : List Floor),
      e.currentFloor = 1 → e.passengers = [] → floorAt floors 1 = some f →
      f.waitingPassengers = p :: rest → p.direction = ElevatorDirection.UP →
      e.update t NF floors = some (e2, fl2) →
      p.calculateWaitTime t ∈ e2.passengers) :=
  ⟨fun h1 => c3_pre e t NF floors h h1,
   fun h1 h2 => c3_preNF e t NF floors h h1 h2,
   fun f p rest e2 fl2 h1 hemp hf hw hpd hupd =>
     c3_board e t NF floors h h1 hemp f p rest hf hw hpd e2 fl2 hupd⟩

/-- C3 witness: concrete instances — at floor 1 a DOWN elevator updates exactly
as the UP one; at the top floor a stopped elevator updates as the DOWN one; and
the DOWN-arriving elevator boards the UP-bound waiting passenger. -/
theorem c3_terminal_pickup_witness :
    (c3eD.update 0 2 c3floors =
      Elevator.update { c3eD with direction := ElevatorDirection.UP } 0 2 c3floors) ∧
    (c3eTop.update 0 2 c3floors =
      Elevator.update { c3eTop with direction := ElevatorDirection.DOWN } 0 2 c3floors) ∧
    c3pW.calculateWaitTime 0 ∈ c3after.passengers := by
  refine ⟨(c3_terminal_pickup c3eD 0 2 c3floors rfl).1 rfl,
    (c3_terminal_pickup c3eTop 0 2 c3floors rfl).2.1 rfl (by decide),
    (c3_terminal_pickup c3eD 0 2 c3floors rfl).2.2 c3floor1 c3pW [] c3after
      c3aftFloors rfl rfl (by decide) rfl rfl (by decide)⟩

/-! ### C8: direction persistence (SCAN) -/

theorem updateStopping_direction (e : Elevator) (t : Int) :
    (e.updateStopping t).direction = e.direction := by
  rw [Elevator.updateStopping]
  split <;> rfl

theorem dropOffPassengers_direction (e : Elevator) (f : Floor) (t : Int) :
    (e.dropOffPassengers f t).1.direction = e.direction := by
  rw [Elevator.dropOffPassengers]

theorem dropOffPassengers_currentFloor (e : Elevator) (f : Floor) (t : Int) :
    (e.dropOffPassengers f t).1.currentFloor = e.currentFloor := by
  rw [Elevator.dropOffPassengers]

theorem pickUpPassengers_direction (e : Elevator) (f : Floor) (t : Int) :
    (e.pickUpPassengers f t).1.direction = e.direction := by
  rw [Elevator.pickUpPassengers]

theorem pickUpPassengers_currentFloor (e : Elevator) (f : Floor) (t : Int) :
    (e.pickUpPassengers f t).1.currentFloor = e.currentFloor := by
  rw [Elevator.pickUpPassengers]

theorem chooseMove_direction_eq (e : Elevator) (t NF : Int)
    (h1 : e.currentFloor ≠ 1) (h2 : e.currentFloor ≠ NF) :
    (e.chooseMove t NF).direction = e.direction := by
  rw [Elevator.chooseMove]
  cases hd : e.direction
  · simp [hd, h2]
  · simp [hd, h1]

theorem stoppedCore_currentFloor (e : Elevator) (t NF : Int) (floor0 : Floor) :
    (e.stoppedCore t NF floor0).1.currentFloor = e.currentFloor := by
  rw [Elevator.stoppedCore]
  simp only [chooseMove_currentFloor]
  set r1 := if e.passengers.isEmpty then (e, floor0)
            else e.dropOffPassengers floor0 t with hr1
  have h1 : r1.1.currentFloor = e.currentFloor := by
    rw [hr1]
    split
    · rfl
    · exact dropOffPassengers_currentFloor e floor0 t
  set e2 := if r1.1.currentFloor == 1 then { r1.1 with direction := ElevatorDirection.UP }
            else if r1.1.currentFloor == NF then
              { r1.1 with direction := ElevatorDirection.DOWN }
            else r1.1 with he2
  have h2 : e2.currentFloor = e.currentFloor := by
    rw [he2]
    split
    · exact h1
    · split
      · exact h1
      · exact h1
  split
  · exact h2
  · rw [pickUpPassengers_currentFloor]
    exact h2

theorem stoppedCore_direction_stable (e : Elevator) (t NF : Int) (floor0 : Floor)
    (h1 : e.currentFloor ≠ 1) (h2 : e.currentFloor ≠ NF) :
    (e.stoppedCore t NF floor0).1.direction = e.direction := by
  rw [Elevator.stoppedCore]
  simp only
  set r1 := if e.passengers.isEmpty then (e, floor0)
            else e.dropOffPassengers floor0 t with hr1
  have hcf : r1.1.currentFloor = e.currentFloor := by
    rw [hr1]
    split
    · rfl
    · exact dropOffPassengers_currentFloor e floor0 t
  have hdir : r1.1.direction = e.direction := by
    rw [hr1]
    split
    · rfl
    · exact dropOffPassengers_direction e floor0 t
  set e2 := if r1.1.currentFloor == 1 then { r1.1 with direction := ElevatorDirection.UP }
            else if r1.1.currentFloor == NF then
              { r1.1 with direction := ElevatorDirection.DOWN }
            else r1.1 with he2
  have he2eq : e2 = r1.1 := by
    rw [he2]
    rw [if_neg (by simp [hcf, h1]), if_neg (by simp [hcf, h2])]
  have he2cf : e2.currentFloor = e.currentFloor := by rw [he2eq, hcf]
  have he2dir : e2.direction = e.direction := by rw [he2eq, hdir]
  split
  · rw [chooseMove_direction_eq _ t NF (he2cf ▸ h1) (he2cf ▸ h2), he2dir]
  · rw [chooseMove_direction_eq _ t NF, pickUpPassengers_direction, he2dir]
    · rw [pickUpPassengers_currentFloor]
      exact he2cf ▸ h1
    · rw [pickUpPassengers_currentFloor]
      exact he2cf ▸ h2

/-- C8: a single Elevator::update call changes the direction field only when the
elevator is at a terminal floor at the moment of the change: whenever the
direction after the call differs from the direction before it, the currentFloor
after the call is 1 or NUM_OF_FLOORS.  Applied along any sequence of update
calls, the direction persists away from the terminal floors (SCAN dispatch). -/
theorem c8_direction_persistence (e : Elevator) (t NF : Int) (floors : List Floor)
    (e2 : Elevator) (fl2 : List Floor)
    (h : e.update t NF floors = some (e2, fl2))
    (hd : e2.direction ≠ e.direction) :
    e2.currentFloor = 1 ∨ e2.currentFloor = NF := by
  rw [Elevator.update] at h
  cases hs : e.state
  case STOPPED =>
    rw [hs] at h
    obtain ⟨floor0, hf0, he2, _⟩ := updateStopped_shape e t NF floors e2 fl2 h
    have hcf : e2.currentFloor = e.currentFloor := by
      rw [he2, stoppedCore_currentFloor]
    by_cases h1 : e.currentFloor = 1
    · exact Or.inl (hcf ▸ h1)
    · by_cases h2 : e.currentFloor = NF
      · exact Or.inr (hcf ▸ h2)
      · exact absurd (by rw [he2, stoppedCore_direction_stable e t NF floor0 h1 h2]) hd
  case STOPPING =>
    rw [hs] at h
    simp only [Option.some.injEq, Prod.mk.injEq] at h
    exact absurd (by rw [← h.1, updateStopping_direction]) hd
  case MOVING_UP =>
    rw [hs] at h
    have h' : e.updateMovingUp t NF floors = some (e2, fl2) := h
    rw [Elevator.updateMovingUp] at h'
    split at h'
    · rw [Option.map_eq_some'] at h'
      obtain ⟨floor, hf, hsome⟩ := h'
      split at hsome
      · injection hsome with h1 h2
        exact absurd (by rw [← h1]) hd
      · split at hsome
        · injection hsome with h1 h2
          exact absurd (by rw [← h1]) hd
        · rename_i hcond
          injection hsome with h1 h2
          right
          rw [← h1]
          simpa using hcond
    · simp only [Option.some.injEq, Prod.mk.injEq] at h'
      exact absurd (by rw [← h'.1]) hd
  case MOVING_DOWN =>
    rw [hs] at h
    have h' : e.updateMovingDown t NF floors = some (e2, fl2) := h
    rw [Elevator.updateMovingDown] at h'
    split at h'
    · rw [Option.map_eq_some'] at h'
      obtain ⟨floor, hf, hsome⟩ := h'
      split at hsome
      · injection hsome with h1 h2
        exact absurd (by rw [← h1]) hd
      · split at hsome
        · injection hsome with h1 h2
          exact absurd (by rw [← h1]) hd
        · rename_i hcond
          injection hsome with h1 h2
          left
          rw [← h1]
          simpa using hcond
    · simp only [Option.some.injEq, Prod.mk.injEq] at h'
      exact absurd (by rw [← h'.1]) hd

/-- C8 witness: the concrete elevator that flips direction does so exactly at the
top floor. -/
theorem c8_direction_persistence_witness :
    c8After.currentFloor = 1 ∨ c8After.currentFloor = 2 :=
  c8_direction_persistence c8Elevator 0 2 twoEmptyFloors c8After twoEmptyFloors
    (by decide) (by decide)

/-! ### C7: intake step -/

theorem floorAt_pos (floors : List Floor) (cf : Int) (f : Floor)
    (h : floorAt floors cf = some f) : 1 ≤ cf := by
  rw [floorAt] at h
  split at h
  · exact absurd h (by simp)
  · omega

/-- C7: the intake while-loop moves exactly the longest prefix of the queue whose
startTime equals the current tick: the queue keeps its remaining suffix, and each
floor (the one at index startFloor - 1, i.e. the floor whose number is startFloor
for the buildings constructed here) receives, appended in arrival order at the
end of its waiting deque, precisely the moved passengers whose startFloor points
at it; floorNumber and the delivered deque are untouched, so a moved passenger
ends up in exactly one floor's waiting set. -/
theorem c7_intake (t : Int) (queue : List Passenger) (floors : List Floor)
    (q2 : List Passenger) (fl2 : List Floor)
    (h : intakeLoop t queue floors = some (q2, fl2)) :
    q2 = queue.dropWhile (fun p => p.startTime == t) ∧
    fl2.length = floors.length ∧
    ∀ (i : Nat) (f : Floor), floors[i]? = some f →
      fl2[i]? = some { f with waitingPassengers := f.waitingPassengers ++
        ((queue.takeWhile (fun p => p.startTime == t)).filter
          (fun p => p.startFloor == (i : Int) + 1)) } := by
  induction queue generalizing floors with
  | nil =>
    rw [intakeLoop] at h
    simp only [Option.some.injEq, Prod.mk.injEq] at h
    refine ⟨h.1.symm, by rw [← h.2], ?_⟩
    intro i f hf
    rw [← h.2, hf]
    simp
  | cons p rest ih =>
    rw [intakeLoop] at h
    by_cases hpt : (p.startTime == t) = true
    · rw [if_pos hpt] at h
      cases hfa : floorAt floors p.startFloor with
      | none => rw [hfa] at h; exact absurd h (by simp)
      | some f0 =>
        rw [hfa] at h
        obtain ⟨hq, hlen, hidx⟩ := ih _ h
        have hsf1 : 1 ≤ p.startFloor := floorAt_pos floors p.startFloor f0 hfa
        have hget : floors[(p.startFloor - 1).toNat]? = some f0 :=
          floorAt_getElem floors p.startFloor f0 hfa
        have hlt : (p.startFloor - 1).toNat < floors.length :=
          (List.getElem?_eq_some_iff.mp hget).1
        have hcast : ((p.startFloor - 1).toNat : Int) = p.startFloor - 1 :=
          Int.toNat_of_nonneg (by omega)
        refine ⟨?_, ?_, ?_⟩
        · rw [hq]
          simp [List.dropWhile_cons, hpt]
        · rw [hlen, setFloorAt, List.length_set]
        · intro i f hf
          by_cases hii : i = (p.startFloor - 1).toNat
          · subst hii
            have hff0 : f = f0 := by
              rw [hf] at hget
              exact Option.some.inj hget
            subst hff0
            have hset : (setFloorAt floors p.startFloor (f.addWaitingPassenger p))[
                (p.startFloor - 1).toNat]? = some (f.addWaitingPassenger p) := by
              rw [setFloorAt]
              exact List.getElem?_set_eq_of_lt _ hlt
            have hres := hidx _ _ hset
            rw [hres]
            have hfloor_eq : (p.startFloor == ((p.startFloor - 1).toNat : Int) + 1) =
                true := by
              rw [hcast]
              simp only [beq_iff_eq]
              omega
            rw [Floor.addWaitingPassenger]
            simp [List.takeWhile_cons, hpt, List.filter_cons, hfloor_eq]
            rw [if_pos (by omega)]
          · have hset : (setFloorAt floors p.startFloor (f0.addWaitingPassenger p))[i]? =
                floors[i]? := by
              rw [setFloorAt]
              exact List.getElem?_set_ne (fun hc => hii hc.symm)
            have hres := hidx i f (by rw [hset]; exact hf)
            rw [hres]
            have hne : (p.startFloor == (i : Int) + 1) = false := by
              simp only [beq_eq_false_iff_ne]
              intro hc
              apply hii
              omega
            simp [List.takeWhile_cons, hpt, List.filter_cons, hne]
    · have hpt2 : (p.startTime == t) = false := by simpa using hpt
      rw [hpt2] at h
      simp only [Bool.false_eq_true, if_false, Option.some.injEq, Prod.mk.injEq] at h
      refine ⟨by rw [← h.1]; simp [List.dropWhile_cons, hpt2], by rw [← h.2], ?_⟩
      intro i f hf
      rw [← h.2, hf]
      simp [List.takeWhile_cons, hpt2]

/-- C7 witness: the concrete intake of one due passenger lands it at the end of
floor 1's waiting deque and empties the queue. -/
theorem c7_intake_witness :
    ([] : List Passenger) = [c7pA].dropWhile (fun p => p.startTime == 0) ∧
    c7fl2[0]? = some { c7f1 with waitingPassengers := c7f1.waitingPassengers ++
      (([c7pA].takeWhile (fun p => p.startTime == 0)).filter
        (fun p => p.startFloor == ((0 : Nat) : Int) + 1)) } := by
  have hmain := c7_intake 0 [c7pA] [c7f1, c7f2] [] c7fl2 (by decide)
  exact ⟨hmain.1, hmain.2.2 0 c7f1 (by decide)⟩

/-! ### C1: conservation -/

theorem intakeLoop_counts (t : Int) (queue : List Passenger) (floors : List Floor)
    (q2 : List Passenger) (fl2 : List Floor)
    (h : intakeLoop t queue floors = some (q2, fl2)) :
    q2.length + floorsWaitingCount fl2 = queue.length + floorsWaitingCount floors ∧
    floorsDeliveredCount fl2 = floorsDeliveredCount floors := by
  induction queue generalizing floors with
  | nil =>
    rw [intakeLoop] at h
    simp only [Option.some.injEq, Prod.mk.injEq] at h
    rw [← h.1, ← h.2]
    exact ⟨rfl, rfl⟩
  | cons p rest ih =>
    rw [intakeLoop] at h
    by_cases hpt : (p.startTime == t) = true
    · rw [if_pos hpt] at h
      cases hfa : floorAt floors p.startFloor with
      | none => rw [hfa] at h; exact absurd h (by simp)
      | some f0 =>
        rw [hfa] at h
        obtain ⟨h1, h2⟩ := ih _ h
        have hget := floorAt_getElem floors p.startFloor f0 hfa
        have hW := sum_map_set (fun f => f.waitingPassengers.length) floors
          (p.startFloor - 1).toNat (f0.addWaitingPassenger p) f0 hget
        have hD := sum_map_set (fun f => f.deliveredPassengers.length) floors
          (p.startFloor - 1).toNat (f0.addWaitingPassenger p) f0 hget
        have hWadd : (f0.addWaitingPassenger p).waitingPassengers.length =
            f0.waitingPassengers.length + 1 := by
          rw [Floor.addWaitingPassenger]
          simp
        have hDadd : (f0.addWaitingPassenger p).deliveredPassengers.length =
            f0.deliveredPassengers.length := by
          rw [Floor.addWaitingPassenger]
        simp only [floorsWaitingCount, floorsDeliveredCount, setFloorAt] at h1 h2 hW hD ⊢
        constructor
        · simp only [List.length_cons]
          omega
        · omega
    · have hpt2 : (p.startTime == t) = false := by simpa using hpt
      rw [hpt2] at h
      simp only [Bool.false_eq_true, if_false, Option.some.injEq, Prod.mk.injEq] at h
      rw [← h.1, ← h.2]
      exact ⟨rfl, rfl⟩

theorem updateElevatorAt_counts (b : Building) (i : Nat) (b2 : Building)
    (h : b.updateElevatorAt i = some b2) :
    b2.passengers.length + floorsWaitingCount b2.floors + elevatorsCount b2.elevators +
        floorsDeliveredCount b2.floors =
      b.passengers.length + floorsWaitingCount b.floors + elevatorsCount b.elevators +
        floorsDeliveredCount b.floors ∧
    b2.totalPassenger = b.totalPassenger ∧
    b2.deliveredPassenger = b.deliveredPassenger := by
  obtain ⟨e, r, he, hr, hb2⟩ := updateElevatorAt_shape b i b2 h
  have hupd := update_counts e b.currentTime b.NUM_OF_FLOORS b.floors r.1 r.2 hr
  have hE := sum_map_set (fun e => e.passengers.length) b.elevators i r.1 e he
  rw [hb2]
  refine ⟨?_, rfl, rfl⟩
  simp only [elevatorsCount] at hE ⊢
  omega

theorem tick_counts (b b2 : Building) (h : b.tick = some b2) :
    b2.passengers.length + floorsWaitingCount b2.floors + elevatorsCount b2.elevators +
        floorsDeliveredCount b2.floors =
      b.passengers.length + floorsWaitingCount b.floors + elevatorsCount b.elevators +
        floorsDeliveredCount b.floors ∧
    b2.totalPassenger = b.totalPassenger ∧
    b2.deliveredPassenger = b.deliveredPassenger := by
  refine tick_preserves (fun c =>
    c.passengers.length + floorsWaitingCount c.floors + elevatorsCount c.elevators +
        floorsDeliveredCount c.floors =
      b.passengers.length + floorsWaitingCount b.floors + elevatorsCount b.elevators +
        floorsDeliveredCount b.floors ∧
    c.totalPassenger = b.totalPassenger ∧
    c.deliveredPassenger = b.deliveredPassenger)
    b b2 ⟨rfl, rfl, rfl⟩ ?_ ?_ ?_ h
  · intro c q fl hPc hint
    obtain ⟨h1, h2⟩ := intakeLoop_counts c.currentTime c.passengers c.floors q fl hint
    refine ⟨?_, hPc.2.1, hPc.2.2⟩
    have h3 := hPc.1
    dsimp only
    omega
  · intro c c2 i hPc hup
    obtain ⟨h1, h2, h3⟩ := updateElevatorAt_counts c i c2 hup
    refine ⟨?_, h2.trans hPc.2.1, h3.trans hPc.2.2⟩
    have h4 := hPc.1
    omega
  · intro c hPc
    exact ⟨hPc.1, hPc.2.1, hPc.2.2⟩

theorem simLoop_arrived : ∀ (fuel : Nat) (b b2 : Building),
    b.simLoop fuel = some b2 → b2.allPassengerArrived = true := by
  intro fuel
  induction fuel with
  | zero =>
    intro b b2 h
    exact absurd h (by simp [Building.simLoop])
  | succ n ih =>
    intro b b2 h
    rw [Building.simLoop] at h
    split at h
    · rename_i hcond
      cases h
      exact hcond
    · cases ht : b.tick with
      | none => rw [ht] at h; exact absurd h (by simp)
      | some c =>
        rw [ht] at h
        exact ih c b2 h

theorem arrived_counts (b : Building) (h : b.allPassengerArrived = true) :
    b.passengers.length = 0 ∧ floorsWaitingCount b.floors = 0 ∧
      elevatorsCount b.elevators = 0 := by
  rw [Building.allPassengerArrived] at h
  simp only [Bool.and_eq_true] at h
  refine ⟨?_, ?_, ?_⟩
  · rw [List.isEmpty_iff.mp h.2.2]
    rfl
  · rw [floorsWaitingCount]
    apply List.sum_eq_zero
    intro x hx
    simp only [List.mem_map] at hx
    obtain ⟨f, hf, hfx⟩ := hx
    have hall := List.all_eq_true.mp h.1 f hf
    have hempty : f.waitingPassengers = [] := by
      rw [Floor.hasWaitingPassengers] at hall
      simpa using hall
    rw [← hfx, hempty]
    rfl
  · rw [elevatorsCount]
    apply List.sum_eq_zero
    intro x hx
    simp only [List.mem_map] at hx
    obtain ⟨e, he, hex⟩ := hx
    have hall := List.all_eq_true.mp h.2.1 e he
    have hempty : e.passengers = [] := by
      rw [Elevator.hasPassengers] at hall
      simpa using hall
    rw [← hex, hempty]
    rfl

theorem finalize_fields (b : Building) :
    b.finalize.deliveredPassenger =
        b.deliveredPassenger + floorsDeliveredCount b.floors ∧
    b.finalize.totalPassenger = b.totalPassenger ∧
    b.finalize.floors = b.floors := by
  rw [Building.finalize]
  refine ⟨?_, rfl, rfl⟩
  simp only
  rw [List.length_flatten, List.map_map]
  rfl

theorem init_counts (nf ne sp st : Int) (intake : List Passenger) :
    (Building.init nf ne sp st intake).passengers.length +
        floorsWaitingCount (Building.init nf ne sp st intake).floors +
        elevatorsCount (Building.init nf ne sp st intake).elevators +
        floorsDeliveredCount (Building.init nf ne sp st intake).floors =
      intake.length ∧
    (Building.init nf ne sp st intake).totalPassenger = intake.length ∧
    (Building.init nf ne sp st intake).deliveredPassenger = 0 := by
  have hW : floorsWaitingCount (Building.init nf ne sp st intake).floors = 0 := by
    rw [floorsWaitingCount]
    apply List.sum_eq_zero
    intro x hx
    simp only [List.mem_map] at hx
    obtain ⟨f, hf, hfx⟩ := hx
    rw [← hfx, (init_floors_empty nf ne sp st intake f hf).1]
    rfl
  have hD : floorsDeliveredCount (Building.init nf ne sp st intake).floors = 0 := by
    rw [floorsDeliveredCount]
    apply List.sum_eq_zero
    intro x hx
    simp only [List.mem_map] at hx
    obtain ⟨f, hf, hfx⟩ := hx
    rw [← hfx, (init_floors_empty nf ne sp st intake f hf).2]
    rfl
  have hE : elevatorsCount (Building.init nf ne sp st intake).elevators = 0 := by
    rw [elevatorsCount]
    apply List.sum_eq_zero
    intro x hx
    simp only [List.mem_map] at hx
    obtain ⟨e, he, hex⟩ := hx
    rw [← hex, init_elevators_empty nf ne sp st intake e he]
    rfl
  refine ⟨?_, rfl, rfl⟩
  rw [hW, hD, hE]
  rfl

/-- C1: conservation.  From any Building constructed with an intake feed, a
terminating run of Building::simulate never throws the post-loop fatal check:
every passenger read at construction is delivered, so on a normal return the
delivered-passenger count and the sum of the floors' delivered sets both equal
the intake count; the passengers move intake queue → floor waiting deque →
elevator → floor delivered deque without loss or duplication (the counted total
across the four owners is invariant at every tick). -/
theorem c1_conservation (nf ne sp st : Int) (intake : List Passenger) (fuel : Nat) :
    (∀ bf : Building,
      (Building.init nf ne sp st intake).simulate fuel ≠ SimResult.fatal bf) ∧
    (∀ bf : Building,
      (Building.init nf ne sp st intake).simulate fuel = SimResult.ok bf →
        bf.deliveredPassenger = intake.length ∧
        floorsDeliveredCount bf.floors = intake.length) := by
  have hmain : ∀ b2 : Building,
      (Building.init nf ne sp st intake).simLoop fuel = some b2 →
      b2.finalize.deliveredPassenger = intake.length ∧
      b2.finalize.totalPassenger = intake.length ∧
      floorsDeliveredCount b2.finalize.floors = intake.length := by
    intro b2 hloop
    have hinit := init_counts nf ne sp st intake
    have hinv := simLoop_preserves (fun c =>
        c.passengers.length + floorsWaitingCount c.floors + elevatorsCount c.elevators +
            floorsDeliveredCount c.floors = intake.length ∧
        c.totalPassenger = intake.length ∧ c.deliveredPassenger = 0)
      (fun c c2 hPc ht => by
        obtain ⟨h1, h2, h3⟩ := tick_counts c c2 ht
        obtain ⟨h4, h5, h6⟩ := hPc
        exact ⟨by omega, h2.trans h5, h3.trans h6⟩)
      fuel (Building.init nf ne sp st intake) b2
      ⟨hinit.1, hinit.2.1, hinit.2.2⟩ hloop
    obtain ⟨hi1, hi2, hi3⟩ := hinv
    have harr := simLoop_arrived fuel (Building.init nf ne sp st intake) b2 hloop
    obtain ⟨hz1, hz2, hz3⟩ := arrived_counts b2 harr
    obtain ⟨hf1, hf2, hf3⟩ := finalize_fields b2
    have hDel : floorsDeliveredCount b2.floors = intake.length := by
      omega
    refine ⟨?_, hf2.trans hi2, ?_⟩
    · rw [hf1, hi3, hDel]
      omega
    · rw [hf3, hDel]
  constructor
  · intro bf hfatal
    rw [Building.simulate] at hfatal
    cases hl : (Building.init nf ne sp st intake).simLoop fuel with
    | none => rw [hl] at hfatal; exact absurd hfatal (by simp)
    | some b2 =>
      rw [hl] at hfatal
      obtain ⟨hd, ht, _⟩ := hmain b2 hl
      have heq : (b2.finalize.totalPassenger != b2.finalize.deliveredPassenger) =
          false := by
        rw [hd, ht]
        simp
      simp only [heq, Bool.false_eq_true, if_false] at hfatal
      exact absurd hfatal (by simp)
  · intro bf hok
    rw [Building.simulate] at hok
    cases hl : (Building.init nf ne sp st intake).simLoop fuel with
    | none => rw [hl] at hok; exact absurd hok (by simp)
    | some b2 =>
      rw [hl] at hok
      obtain ⟨hd, ht, hD⟩ := hmain b2 hl
      have heq : (b2.finalize.totalPassenger != b2.finalize.deliveredPassenger) =
          false := by
        rw [hd, ht]
        simp
      simp only [heq, Bool.false_eq_true, if_false, SimResult.ok.injEq] at hok
      rw [← hok]
      exact ⟨hd, hD⟩

/-- C1 witness: a concrete one-passenger run returns normally with the delivered
count equal to the intake count. -/
theorem c1_conservation_witness :
    (Building.init 2 4 1 2 [c1p]).simulate 10 ≠
        SimResult.fatal (resultBuilding ((Building.init 2 4 1 2 [c1p]).simulate 10)) ∧
    (resultBuilding ((Building.init 2 4 1 2 [c1p]).simulate 10)).deliveredPassenger =
      [c1p].length ∧
    floorsDeliveredCount
        (resultBuilding ((Building.init 2 4 1 2 [c1p]).simulate 10)).floors =
      [c1p].length := by
  refine ⟨(c1_conservation 2 4 1 2 [c1p] 10).1 _, ?_, ?_⟩
  · exact ((c1_conservation 2 4 1 2 [c1p] 10).2 _ (by decide)).1
  · exact ((c1_conservation 2 4 1 2 [c1p] 10).2 _ (by decide)).2

/-! ### C10: elevator-count precondition of the staggered updates -/

theorem updateElevatorAt_fields (b : Building) (i : Nat) (b2 : Building)
    (h : b.updateElevatorAt i = some b2) :
    b2.elevators.length = b.elevators.length ∧ b2.currentTime = b.currentTime ∧
    (b.elevators[i]?).isSome = true := by
  obtain ⟨e, r, he, hr, hb2⟩ := updateElevatorAt_shape b i b2 h
  rw [hb2]
  refine ⟨List.length_set b.elevators i r.1, rfl, ?_⟩
  rw [he]
  rfl

/-- C10 counterexample: the claim says every run with numOfElevators < 4 that is
still active at tick 100 makes the out-of-bounds access elevators[1] there; but
the concrete run with 2 elevators (< 4), still active at tick 100 (the intake
queue still holds its passenger), executes the tick at currentTime = 100 — which
performs the elevators[1] access — successfully: that access is in bounds. -/
theorem c10_counterexample :
    ((tickIter 100 (Building.init 2 2 1 2 [c10pLate])).map
        (fun c => (c.currentTime, c.passengers.length, c.elevators.length))) =
      some (100, 1, 2) ∧
    ((tickIter 100 (Building.init 2 2 1 2 [c10pLate])).bind Building.tick).isSome =
      true := by
  exact ⟨by decide, by decide⟩

/-- C10 (amended): Building::simulate updates elevators[1], elevators[2],
elevators[3] unconditionally once currentTime reaches 100, 500, 700, never
checking NUM_OF_ELEVATORS; a loop iteration at currentTime ≥ 100 with fewer than
2 elevators fails on the out-of-bounds access elevators[1] (at ≥ 500 with fewer
than 3 on elevators[2], at ≥ 700 with fewer than 4 on elevators[3], modelled as
tick = none), so every access of a run that stays active past tick 700 is in
bounds only when numOfElevators ≥ 4; conversely with at least 4 elevators every
index the loop body uses exists. -/
theorem c10_amended (b : Building) :
    (b.currentTime ≥ 100 → b.elevators.length < 2 → b.tick = none) ∧
    (b.currentTime ≥ 500 → b.elevators.length < 3 → b.tick = none) ∧
    (b.currentTime ≥ 700 → b.elevators.length < 4 → b.tick = none) ∧
    (4 ≤ b.elevators.length → ∀ i, i < 4 → (b.elevators[i]?).isSome = true) := by
  refine ⟨?_, ?_, ?_, ?_⟩
  · intro h100 hlen
    cases ht : b.tick with
    | none => rfl
    | some b2 =>
      exfalso
      rw [Building.tick] at ht
      simp only [Option.bind_eq_some, Option.map_eq_some'] at ht
      obtain ⟨q, hq, c2, h0, c3, h1, c4, h2, c5, h3, hb5⟩ := ht
      obtain ⟨hl0, ht0, _⟩ := updateElevatorAt_fields _ 0 c2 h0
      have ht2 : c2.currentTime ≥ 100 := by rw [ht0]; exact h100
      have hl2 : c2.elevators.length < 2 := by rw [hl0]; exact hlen
      rw [if_pos ht2] at h1
      obtain ⟨_, _, hs1⟩ := updateElevatorAt_fields c2 1 c3 h1
      rw [List.getElem?_eq_none (by omega)] at hs1
      exact absurd hs1 (by simp)
  · intro h500 hlen
    cases ht : b.tick with
    | none => rfl
    | some b2 =>
      exfalso
      rw [Building.tick] at ht
      simp only [Option.bind_eq_some, Option.map_eq_some'] at ht
      obtain ⟨q, hq, c2, h0, c3, h1, c4, h2, c5, h3, hb5⟩ := ht
      obtain ⟨hl0, ht0, _⟩ := updateElevatorAt_fields _ 0 c2 h0
      have ht2 : c2.currentTime ≥ 500 := by rw [ht0]; exact h500
      have hl2 : c2.elevators.length < 3 := by rw [hl0]; exact hlen
      rw [if_pos (by omega : c2.currentTime ≥ 100)] at h1
      obtain ⟨hl1, ht1, _⟩ := updateElevatorAt_fields c2 1 c3 h1
      rw [if_pos (by omega : c3.currentTime ≥ 500)] at h2
      obtain ⟨_, _, hs2⟩ := updateElevatorAt_fields c3 2 c4 h2
      rw [List.getElem?_eq_none (by omega)] at hs2
      exact absurd hs2 (by simp)
  · intro h700 hlen
    cases ht : b.tick with
    | none => rfl
    | some b2 =>
      exfalso
      rw [Building.tick] at ht
      simp only [Option.bind_eq_some, Option.map_eq_some'] at ht
      obtain ⟨q, hq, c2, h0, c3, h1, c4, h2, c5, h3, hb5⟩ := ht
      obtain ⟨hl0, ht0, _⟩ := updateElevatorAt_fields _ 0 c2 h0
      have ht2 : c2.currentTime ≥ 700 := by rw [ht0]; exact h700
      have hl2 : c2.elevators.length < 4 := by rw [hl0]; exact hlen
      rw [if_pos (by omega : c2.currentTime ≥ 100)] at h1
      obtain ⟨hl1, ht1, _⟩ := updateElevatorAt_fields c2 1 c3 h1
      rw [if_pos (by omega : c3.currentTime ≥ 500)] at h2
      obtain ⟨hl2', ht2', _⟩ := updateElevatorAt_fields c3 2 c4 h2
      rw [if_pos (by omega : c4.currentTime ≥ 700)] at h3
      obtain ⟨_, _, hs3⟩ := updateElevatorAt_fields c4 3 c5 h3
      rw [List.getElem?_eq_none (by omega)] at hs3
      exact absurd hs3 (by simp)
  · intro h4 i hi
    rw [List.getElem?_eq_getElem (by omega)]
    rfl

/-- C10 amended witness: the concrete one-elevator building at tick 100 fails its
loop iteration, and a four-elevator building has all four indices in bounds. -/
theorem c10_amended_witness :
    c10bStuck.tick = none ∧
    ((Building.init 2 4 1 2 []).elevators[3]?).isSome = true := by
  refine ⟨(c10_amended c10bStuck).1 (by decide) (by decide), ?_⟩
  exact (c10_amended (Building.init 2 4 1 2 [])).2.2.2 (by decide) 3 (by decide)

end ElevatorSim
